import Mathlib

/- A shallow embedding of the pricing pipeline of src/agile_oct_telegram.py.
   Timestamps are modelled as natural numbers (minutes since an epoch) and
   all prices and costs as exact rationals.  Display rounding to one decimal
   place and the final date/time column split at the end of process_prices
   are presentation formatting and are not modelled; every statement below
   concerns the pre-rounding values. -/

/-- One half-hour price interval as returned by the rate source. -/
structure PricePoint where
  valid_from : Nat
  value_exc_vat : ℚ
  value_inc_vat : ℚ
deriving DecidableEq

/-- Flat tariff unit rate, GO_PRICE = 9 in the source. -/
def GO_PRICE : ℚ := 9

/-- Fixed per-half-hour consumption rate, charge_rate_30_min = 2.2. -/
def charge_rate_30_min : ℚ := 11 / 5

/-- Default variable tariff standing charge, agile_sc = 59.26. -/
def agile_sc_default : ℚ := 2963 / 50

/-- Default flat tariff standing charge, go_sc = 41.74. -/
def go_sc_default : ℚ := 2087 / 50

/-- Pandas series.rolling(window = w, min_periods = 1).sum() on a series with
no missing values: entry j is the sum of the at most w entries ending at j. -/
def rollingSumMP1 (s : List ℚ) (w : Nat) : List ℚ :=
  (List.range s.length).map (fun j => ((s.drop (j + 1 - w)).take (min w (j + 1))).sum)

/-- Pandas series.shift(-n): entry i becomes the entry at i + n, and the last
n entries become missing. -/
def shiftNeg (s : List ℚ) (n : Nat) : List (Option ℚ) :=
  (List.range s.length).map (fun i => s[i + n]?)

/-- Sum current row plus next n rows, as written in the source:
series.rolling(window = n + 1, min_periods = 1).sum().shift(-n). -/
def sum_current_and_next_n (series : List ℚ) (n : Nat) : List (Option ℚ) :=
  shiftNeg (rollingSumMP1 series (n + 1)) n

/-- Pandas column minimum: missing entries are skipped, and the minimum of an
all-missing column is itself missing. -/
def seriesMin : List (Option ℚ) → Option ℚ
  | [] => none
  | none :: xs => seriesMin xs
  | some v :: xs =>
    match seriesMin xs with
    | none => some v
    | some m => some (min v m)

/-- Position of the first entry of the column holding the given value. -/
def findFirstIdx : List (Option ℚ) → ℚ → Option Nat
  | [], _ => none
  | none :: xs, m => (findFirstIdx xs m).map (· + 1)
  | some v :: xs, m => if v = m then some 0 else (findFirstIdx xs m).map (· + 1)

/-- Pandas idxmin: position of the first minimal entry of the column, failing
(the pandas call raises) when every entry of the column is missing. -/
def idxmin (s : List (Option ℚ)) : Option Nat :=
  match seriesMin s with
  | none => none
  | some m => findFirstIdx s m

/-- df.sort_values(by = "valid_from"): the frame sorted ascending by start
timestamp. -/
def sortByValidFrom (rates : List PricePoint) : List PricePoint :=
  rates.mergeSort (fun a b => a.valid_from ≤ b.valid_from)

/-- Per-slot cost column of the sorted frame: value_exc_vat times the fixed
half-hour consumption rate. -/
def costSeries (rates : List PricePoint) : List ℚ :=
  (sortByValidFrom rates).map (fun p => p.value_exc_vat * charge_rate_30_min)

/-- One output row of process_prices, before display rounding. -/
structure WindowResult where
  hours : ℚ
  start_time : Nat
  go_price : ℚ
  agile_price : ℚ
  winner : String
  price_diff : ℚ
  rate : ℚ
deriving DecidableEq

instance : Inhabited WindowResult := ⟨⟨0, 0, 0, 0, "", 0, 0⟩⟩

/-- One duration column of process_prices for duration count n: the forward
window sums, their column minimum and its first position, and the derived
comparison row.  Failure of the column minimum or of idxmin (all-missing
column) aborts, as the raising pandas calls do. -/
def durationRow (df : List PricePoint) (cost : List ℚ) (go_sc agile_sc : ℚ)
    (n : Nat) : Option WindowResult :=
  match seriesMin (sum_current_and_next_n cost n),
        idxmin (sum_current_and_next_n cost n) with
  | some m, some i =>
    match df[i]? with
    | some p =>
      let hours : ℚ := ((n : ℚ) + 1) / 2
      let go_price := GO_PRICE * hours * 2 * charge_rate_30_min + go_sc
      let agile_price := m + agile_sc
      let winner := if go_price < agile_price then "go" else "agile"
      some { hours := hours
             start_time := p.valid_from
             go_price := go_price
             agile_price := agile_price
             winner := winner
             price_diff := |go_price - agile_price|
             rate := if winner = "go" then go_price / (hours * 2 * charge_rate_30_min)
                     else agile_price / (hours * 2 * charge_rate_30_min) }
    | none => none
  | _, _ => none

/-- Collects the per-duration rows; any failing column aborts the whole
computation, matching the raising pandas idxmin on an all-missing column. -/
def allSome : List (Option WindowResult) → Option (List WindowResult)
  | [] => some []
  | none :: _ => none
  | some r :: xs => (allSome xs).map (fun rs => r :: rs)

/-- Engine core, process_prices: sort by valid_from, build the per-slot cost
column, and produce one comparison row per duration candidate n in 1..7. -/
def process_prices (rates : List PricePoint) (go_sc agile_sc : ℚ) :
    Option (List WindowResult) :=
  allSome ((List.range 7).map (fun k =>
    durationRow (sortByValidFrom rates) (costSeries rates) go_sc agile_sc (k + 1)))

/-- Modelled from the spec: the truncating forward window sum described by
step 2 of the spec (the sum of the at most n + 1 available slot costs from
start slot i onward), stated for comparison with the code. -/
def specWindowSum (s : List ℚ) (n i : Nat) : ℚ := ((s.drop i).take (n + 1)).sum

/-- Minutes in a day. -/
def minutesPerDay : Nat := 1440

/-- OFFPEAK_START, 00:30, as minutes of the day. -/
def OFFPEAK_START : Nat := 30

/-- OFFPEAK_END, 05:30, as minutes of the day. -/
def OFFPEAK_END : Nat := 330

/-- Time of day of a timestamp, in minutes. -/
def timeOfDay (t : Nat) : Nat := t % minutesPerDay

/-- is_offpeak from the source: OFFPEAK_START <= t.time() < OFFPEAK_END. -/
def is_offpeak (t : Nat) : Bool :=
  OFFPEAK_START ≤ timeOfDay t && timeOfDay t < OFFPEAK_END

/-- go_rate_for_time from the source: GO_PRICE when off peak, 30.92 else. -/
def go_rate_for_time (t : Nat) : ℚ :=
  if is_offpeak t then GO_PRICE else 773 / 25

/-- Externally visible pipeline actions of main. -/
inductive Ev
  | plotPrices
  | plotTable
  | sendChart
  | sendTable
  | markRun
  | sendError
deriving DecidableEq

/-- Environment of one invocation of main: the run-once guard state, the
fetch outcome (none models a raised fetch error), and whether each rendering
or delivery call returns normally. -/
structure RunEnv where
  hasRunToday : Bool
  fetchResult : Option (List PricePoint)
  plotPricesOk : Bool
  plotTableOk : Bool
  sendChartOk : Bool
  sendTableOk : Bool

/-- Body of the try block of main: the collaborator actions performed in
order, and whether the block completed without raising.  The empty-rates
check raises before anything is rendered; a failing step appears in the
trace (it was attempted) and stops the block. -/
def tryBody (env : RunEnv) : List Ev × Bool :=
  match env.fetchResult with
  | none => ([], false)
  | some rates =>
    if rates.isEmpty then ([], false)
    else if env.plotPricesOk = false then ([Ev.plotPrices], false)
    else
      match process_prices rates go_sc_default agile_sc_default with
      | none => ([Ev.plotPrices], false)
      | some _ =>
        if env.plotTableOk = false then ([Ev.plotPrices, Ev.plotTable], false)
        else if env.sendChartOk = false then
          ([Ev.plotPrices, Ev.plotTable, Ev.sendChart], false)
        else if env.sendTableOk = false then
          ([Ev.plotPrices, Ev.plotTable, Ev.sendChart, Ev.sendTable], false)
        else
          ([Ev.plotPrices, Ev.plotTable, Ev.sendChart, Ev.sendTable, Ev.markRun], true)

/-- main: the run-once guard, then the try block, then the except handler
which sends a single error notification on any raise. -/
def mainRun (env : RunEnv) : List Ev :=
  if env.hasRunToday then []
  else
    match tryBody env with
    | (es, true) => es
    | (es, false) => es ++ [Ev.sendError]

/- Concrete example series used by the counterexamples and witnesses. -/

/-- Shorthand for a price point whose two values coincide. -/
def pt (t : Nat) (v : ℚ) : PricePoint := ⟨t, v, v⟩

/-- Eight half-hour slots with a cheap final slot: slot costs are
22, 22, 22, 22, 22, 22, 22, 1. -/
def ex8 : List PricePoint :=
  [pt 0 10, pt 30 10, pt 60 10, pt 90 10, pt 120 10, pt 150 10, pt 180 10,
   pt 210 (5 / 11)]

/-- Eight half-hour slots with equal prices: every window of a given
duration has the same cost, a full tie. -/
def exEq : List PricePoint :=
  [pt 0 10, pt 30 10, pt 60 10, pt 90 10, pt 120 10, pt 150 10, pt 180 10,
   pt 210 10]

/-- The rows process_prices produces on ex8 with zero standing charges. -/
def ex8Rows : List WindowResult :=
  [⟨1, 180, 198/5, 23, "agile", 83/5, 115/22⟩,
   ⟨3/2, 150, 297/5, 45, "agile", 72/5, 75/11⟩,
   ⟨2, 120, 396/5, 67, "agile", 61/5, 335/44⟩,
   ⟨5/2, 90, 99, 89, "agile", 10, 89/11⟩,
   ⟨3, 60, 594/5, 111, "agile", 39/5, 185/22⟩,
   ⟨7/2, 30, 693/5, 133, "agile", 28/5, 95/11⟩,
   ⟨4, 0, 792/5, 155, "agile", 17/5, 775/88⟩]

/-- The rows process_prices produces on exEq with zero standing charges. -/
def exEqRows : List WindowResult :=
  [⟨1, 0, 198/5, 44, "go", 22/5, 9⟩,
   ⟨3/2, 0, 297/5, 66, "go", 33/5, 9⟩,
   ⟨2, 0, 396/5, 88, "go", 44/5, 9⟩,
   ⟨5/2, 0, 99, 110, "go", 11, 9⟩,
   ⟨3, 0, 594/5, 132, "go", 66/5, 9⟩,
   ⟨7/2, 0, 693/5, 154, "go", 77/5, 9⟩,
   ⟨4, 0, 792/5, 176, "go", 88/5, 9⟩]

/-- exEq with its first two points exchanged (same multiset of points). -/
def exEqSwap : List PricePoint :=
  [pt 30 10, pt 0 10, pt 60 10, pt 90 10, pt 120 10, pt 150 10, pt 180 10,
   pt 210 10]

/-- Run environment in which the fetch returns an empty rate list. -/
def envEmpty : RunEnv := ⟨false, some [], true, true, true, true⟩

/-- Run environment in which the fetch itself raises. -/
def envFetchFail : RunEnv := ⟨false, none, true, true, true, true⟩

/- Helper lemmas about the embedded operations. -/

theorem length_rollingSumMP1 (s : List ℚ) (w : Nat) :
    (rollingSumMP1 s w).length = s.length := by
  simp [rollingSumMP1]

theorem getElem?_rollingSumMP1 (s : List ℚ) (w j : Nat) (hj : j < s.length) :
    (rollingSumMP1 s w)[j]? =
      some (((s.drop (j + 1 - w)).take (min w (j + 1))).sum) := by
  simp [rollingSumMP1, List.getElem?_map, List.getElem?_range hj]

theorem windowColumn_getElem? (s : List ℚ) (n i : Nat) :
    (sum_current_and_next_n s n)[i]? =
      if i < s.length then
        some (if i + n < s.length then some (specWindowSum s n i) else none)
      else none := by
  unfold sum_current_and_next_n shiftNeg
  by_cases hi : i < s.length
  · have hi2 : i < (rollingSumMP1 s (n + 1)).length := by
      rw [length_rollingSumMP1]; exact hi
    rw [List.getElem?_map, List.getElem?_range (by rw [length_rollingSumMP1]; exact hi)]
    by_cases hin : i + n < s.length
    · rw [Option.map_some']
      have h1 := getElem?_rollingSumMP1 s (n + 1) (i + n) hin
      have h2 : i + n + 1 - (n + 1) = i := by omega
      have h3 : min (n + 1) (i + n + 1) = n + 1 := by omega
      rw [h2, h3] at h1
      rw [h1]
      simp [hi, hin, specWindowSum]
    · have h1 : (rollingSumMP1 s (n + 1))[i + n]? = none := by
        apply List.getElem?_eq_none
        rw [length_rollingSumMP1]; omega
      rw [Option.map_some', h1]
      simp [hi, hin]
  · have h1 : (List.range (rollingSumMP1 s (n + 1)).length)[i]? = none := by
      apply List.getElem?_eq_none
      rw [List.length_range, length_rollingSumMP1]; omega
    rw [List.getElem?_map, h1]
    simp [hi]

theorem seriesMin_eq_none (s : List (Option ℚ)) (h : seriesMin s = none) :
    ∀ (i : Nat) (x : ℚ), s[i]? ≠ some (some x) := by
  induction s with
  | nil => intro i x; simp
  | cons hd tl ih =>
    intro i x
    cases hd with
    | none =>
      rw [seriesMin] at h
      cases i with
      | zero => simp
      | succ i0 => simpa using ih h i0 x
    | some v =>
      rw [seriesMin] at h
      rcases h2 : seriesMin tl with _ | m0 <;> rw [h2] at h <;> simp at h

theorem seriesMin_le (s : List (Option ℚ)) (m : ℚ) (i : Nat) (x : ℚ)
    (hm : seriesMin s = some m) (hx : s[i]? = some (some x)) : m ≤ x := by
  induction s generalizing i m with
  | nil => simp at hx
  | cons hd tl ih =>
    cases hd with
    | none =>
      rw [seriesMin] at hm
      cases i with
      | zero => simp at hx
      | succ i0 => exact ih m i0 hm (by simpa using hx)
    | some v =>
      rw [seriesMin] at hm
      rcases h2 : seriesMin tl with _ | m0 <;> rw [h2] at hm
      · cases i with
        | zero =>
          simp at hx hm
          rw [← hx, ← hm]
        | succ i0 =>
          exact absurd (by simpa using hx) (seriesMin_eq_none tl h2 i0 x)
      · cases i with
        | zero =>
          simp at hx hm
          rw [← hx, ← hm]
          exact min_le_left v m0
        | succ i0 =>
          have h3 : m0 ≤ x := ih m0 i0 h2 (by simpa using hx)
          simp at hm
          rw [← hm]
          exact le_trans (min_le_right v m0) h3

theorem findFirstIdx_le (s : List (Option ℚ)) (m : ℚ) (j i : Nat)
    (hj : findFirstIdx s m = some j) (hi : s[i]? = some (some m)) : j ≤ i := by
  induction s generalizing j i with
  | nil => simp at hi
  | cons hd tl ih =>
    cases hd with
    | none =>
      rw [findFirstIdx] at hj
      rcases Option.map_eq_some'.mp hj with ⟨j0, hj0, rfl⟩
      cases i with
      | zero => simp at hi
      | succ i0 => exact Nat.succ_le_succ (ih j0 i0 hj0 (by simpa using hi))
    | some v =>
      rw [findFirstIdx] at hj
      by_cases hvm : v = m
      · simp [hvm] at hj
        omega
      · simp [hvm] at hj
        rcases hj with ⟨j0, hj0, rfl⟩
        cases i with
        | zero =>
          simp at hi
          exact absurd hi (by simpa using hvm)
        | succ i0 => exact Nat.succ_le_succ (ih j0 i0 hj0 (by simpa using hi))

theorem findFirstIdx_getElem (s : List (Option ℚ)) (m : ℚ) (j : Nat)
    (hj : findFirstIdx s m = some j) : s[j]? = some (some m) := by
  induction s generalizing j with
  | nil => simp [findFirstIdx] at hj
  | cons hd tl ih =>
    cases hd with
    | none =>
      rw [findFirstIdx] at hj
      rcases Option.map_eq_some'.mp hj with ⟨j0, hj0, rfl⟩
      simpa using ih j0 hj0
    | some v =>
      rw [findFirstIdx] at hj
      by_cases hvm : v = m
      · simp [hvm] at hj
        subst hj
        simp [hvm]
      · simp [hvm] at hj
        rcases hj with ⟨j0, hj0, rfl⟩
        simpa using ih j0 hj0

theorem allSome_getElem? (l : List (Option WindowResult)) (ys : List WindowResult)
    (h : allSome l = some ys) (k : Nat) (r : WindowResult)
    (hk : ys[k]? = some r) : l[k]? = some (some r) := by
  induction l generalizing ys k with
  | nil =>
    rw [allSome] at h
    cases h
    simp at hk
  | cons hd tl ih =>
    cases hd with
    | none => rw [allSome] at h; cases h
    | some r0 =>
      rw [allSome] at h
      rcases Option.map_eq_some'.mp h with ⟨ys0, hys0, rfl⟩
      cases k with
      | zero =>
        simp at hk
        simp [hk]
      | succ k0 =>
        simpa using ih ys0 hys0 k0 (by simpa using hk)

theorem allSome_mem (l : List (Option WindowResult)) (ys : List WindowResult)
    (h : allSome l = some ys) (r : WindowResult) (hr : r ∈ ys) :
    some r ∈ l := by
  rcases List.mem_iff_getElem?.mp hr with ⟨k, hk⟩
  exact List.mem_iff_getElem?.mpr ⟨k, allSome_getElem? l ys h k r hk⟩

theorem process_prices_row (rates : List PricePoint) (go_sc agile_sc : ℚ)
    (rs : List WindowResult) (k : Nat) (r : WindowResult)
    (hp : process_prices rates go_sc agile_sc = some rs) (hk : rs[k]? = some r) :
    k < 7 ∧
      durationRow (sortByValidFrom rates) (costSeries rates) go_sc agile_sc (k + 1)
        = some r := by
  unfold process_prices at hp
  have h1 := allSome_getElem? _ _ hp k r hk
  rw [List.getElem?_map] at h1
  by_cases hk7 : k < 7
  · rw [List.getElem?_range hk7] at h1
    simp at h1
    exact ⟨hk7, h1⟩
  · rw [List.getElem?_eq_none (by simpa using Nat.le_of_not_lt hk7)] at h1
    simp at h1

theorem process_prices_mem (rates : List PricePoint) (go_sc agile_sc : ℚ)
    (rs : List WindowResult) (r : WindowResult)
    (hp : process_prices rates go_sc agile_sc = some rs) (hr : r ∈ rs) :
    ∃ k, k < 7 ∧
      durationRow (sortByValidFrom rates) (costSeries rates) go_sc agile_sc (k + 1)
        = some r := by
  rcases List.mem_iff_getElem?.mp hr with ⟨k, hk⟩
  exact ⟨k, process_prices_row rates go_sc agile_sc rs k r hp hk⟩

theorem durationRow_inv (df : List PricePoint) (cost : List ℚ) (go_sc agile_sc : ℚ)
    (n : Nat) (r : WindowResult)
    (h : durationRow df cost go_sc agile_sc n = some r) :
    ∃ m j p, seriesMin (sum_current_and_next_n cost n) = some m ∧
      idxmin (sum_current_and_next_n cost n) = some j ∧
      df[j]? = some p ∧
      r.hours = ((n : ℚ) + 1) / 2 ∧
      r.start_time = p.valid_from ∧
      r.go_price = GO_PRICE * (((n : ℚ) + 1) / 2) * 2 * charge_rate_30_min + go_sc ∧
      r.agile_price = m + agile_sc ∧
      r.winner = (if r.go_price < r.agile_price then "go" else "agile") ∧
      r.price_diff = |r.go_price - r.agile_price| ∧
      r.rate = (if r.winner = "go" then r.go_price else r.agile_price) /
        (r.hours * 2 * charge_rate_30_min) := by
  unfold durationRow at h
  split at h
  · split at h
    · rename_i x1 x2 m j hm hj x3 p hp3
      simp only [Option.some_inj] at h
      subst h
      refine ⟨m, j, p, hm, hj, hp3, rfl, rfl, rfl, rfl, rfl, rfl, ?_⟩
      dsimp only
      split <;> rfl
    · cases h
  · cases h

theorem sortByValidFrom_sorted (rates : List PricePoint) :
    (sortByValidFrom rates).Pairwise (fun a b => a.valid_from ≤ b.valid_from) := by
  have h := @List.sorted_mergeSort PricePoint
    (fun a b => decide (a.valid_from ≤ b.valid_from))
    (by intro a b c hab hbc; simp at hab hbc ⊢; omega)
    (by intro a b; simp; omega) rates
  exact h.imp (by intro a b hab; simpa using hab)

theorem sortByValidFrom_perm (rates : List PricePoint) :
    (sortByValidFrom rates).Perm rates :=
  List.mergeSort_perm rates _

instance : IsAntisymm PricePoint (fun a b => a.valid_from < b.valid_from) :=
  ⟨fun _ _ h1 h2 => absurd h1 (by omega)⟩

theorem sortByValidFrom_eq_of_perm (r1 r2 : List PricePoint)
    (hperm : r1.Perm r2)
    (hnodup : (r1.map PricePoint.valid_from).Nodup) :
    sortByValidFrom r1 = sortByValidFrom r2 := by
  have hs1 := sortByValidFrom_sorted r1
  have hs2 := sortByValidFrom_sorted r2
  have hp : (sortByValidFrom r1).Perm (sortByValidFrom r2) :=
    (sortByValidFrom_perm r1).trans (hperm.trans (sortByValidFrom_perm r2).symm)
  have hn1 : ((sortByValidFrom r1).map PricePoint.valid_from).Nodup :=
    ((sortByValidFrom_perm r1).map PricePoint.valid_from).nodup_iff.mpr hnodup
  have hn2 : ((sortByValidFrom r2).map PricePoint.valid_from).Nodup := by
    refine ((sortByValidFrom_perm r2).map PricePoint.valid_from).nodup_iff.mpr ?_
    exact ((hperm.map PricePoint.valid_from).nodup_iff).mp hnodup
  have hne1 : (sortByValidFrom r1).Pairwise (fun a b => a.valid_from ≠ b.valid_from) :=
    List.pairwise_map.mp hn1
  have hne2 : (sortByValidFrom r2).Pairwise (fun a b => a.valid_from ≠ b.valid_from) :=
    List.pairwise_map.mp hn2
  have hlt1 : (sortByValidFrom r1).Pairwise (fun a b => a.valid_from < b.valid_from) :=
    (hs1.and hne1).imp (fun hab => by omega)
  have hlt2 : (sortByValidFrom r2).Pairwise (fun a b => a.valid_from < b.valid_from) :=
    (hs2.and hne2).imp (fun hab => by omega)
  exact List.eq_of_perm_of_sorted hp hlt1 hlt2

theorem sortByValidFrom_mono (rates : List PricePoint) (j i : Nat) (hji : j ≤ i)
    (p q : PricePoint) (hp : (sortByValidFrom rates)[j]? = some p)
    (hq : (sortByValidFrom rates)[i]? = some q) :
    p.valid_from ≤ q.valid_from := by
  rcases Nat.lt_or_eq_of_le hji with hlt | rfl
  · have hs := sortByValidFrom_sorted rates
    rcases List.getElem?_eq_some.mp hp with ⟨hj2, rfl⟩
    rcases List.getElem?_eq_some.mp hq with ⟨hi2, rfl⟩
    exact List.pairwise_iff_getElem.mp hs j i hj2 hi2 hlt
  · rw [hp] at hq
    cases hq
    exact le_refl _


theorem sort_ex8 : sortByValidFrom ex8 = ex8 :=
  List.mergeSort_of_sorted (by decide)

theorem sort_exEq : sortByValidFrom exEq = exEq :=
  List.mergeSort_of_sorted (by decide)

theorem cost_ex8 : costSeries ex8 = [22, 22, 22, 22, 22, 22, 22, 1] := by
  unfold costSeries
  rw [sort_ex8]
  norm_num [ex8, pt, charge_rate_30_min]

theorem cost_exEq : costSeries exEq = [22, 22, 22, 22, 22, 22, 22, 22] := by
  unfold costSeries
  rw [sort_exEq]
  norm_num [exEq, pt, charge_rate_30_min]

theorem agile_ne_go : ¬ ("agile" = "go") := by decide


theorem col_ex8_1 : sum_current_and_next_n (costSeries ex8) 1 =
    [some (44), some (44), some (44), some (44), some (44), some (44), some (23), none] := by
  norm_num [cost_ex8, sum_current_and_next_n, shiftNeg, rollingSumMP1,
    List.range_succ]

theorem min_ex8_1 : seriesMin (sum_current_and_next_n (costSeries ex8) 1) =
    some (23) := by
  rw [col_ex8_1]
  norm_num [seriesMin, min_def]

theorem idx_ex8_1 : idxmin (sum_current_and_next_n (costSeries ex8) 1) =
    some 6 := by
  rw [idxmin, min_ex8_1, col_ex8_1]
  norm_num [findFirstIdx]

theorem row_ex8_1 :
    durationRow (sortByValidFrom ex8) (costSeries ex8) 0 0 1 =
      some ⟨1, 180, 198/5, 23, "agile", 83/5, 115/22⟩ := by
  rw [durationRow, min_ex8_1, idx_ex8_1, sort_ex8]
  norm_num [ex8, pt, GO_PRICE, charge_rate_30_min, agile_ne_go]

theorem col_ex8_2 : sum_current_and_next_n (costSeries ex8) 2 =
    [some (66), some (66), some (66), some (66), some (66), some (45), none, none] := by
  norm_num [cost_ex8, sum_current_and_next_n, shiftNeg, rollingSumMP1,
    List.range_succ]

theorem min_ex8_2 : seriesMin (sum_current_and_next_n (costSeries ex8) 2) =
    some (45) := by
  rw [col_ex8_2]
  norm_num [seriesMin, min_def]

theorem idx_ex8_2 : idxmin (sum_current_and_next_n (costSeries ex8) 2) =
    some 5 := by
  rw [idxmin, min_ex8_2, col_ex8_2]
  norm_num [findFirstIdx]

theorem row_ex8_2 :
    durationRow (sortByValidFrom ex8) (costSeries ex8) 0 0 2 =
      some ⟨3/2, 150, 297/5, 45, "agile", 72/5, 75/11⟩ := by
  rw [durationRow, min_ex8_2, idx_ex8_2, sort_ex8]
  norm_num [ex8, pt, GO_PRICE, charge_rate_30_min, agile_ne_go]

theorem col_ex8_3 : sum_current_and_next_n (costSeries ex8) 3 =
    [some (88), some (88), some (88), some (88), some (67), none, none, none] := by
  norm_num [cost_ex8, sum_current_and_next_n, shiftNeg, rollingSumMP1,
    List.range_succ]

theorem min_ex8_3 : seriesMin (sum_current_and_next_n (costSeries ex8) 3) =
    some (67) := by
  rw [col_ex8_3]
  norm_num [seriesMin, min_def]

theorem idx_ex8_3 : idxmin (sum_current_and_next_n (costSeries ex8) 3) =
    some 4 := by
  rw [idxmin, min_ex8_3, col_ex8_3]
  norm_num [findFirstIdx]

theorem row_ex8_3 :
    durationRow (sortByValidFrom ex8) (costSeries ex8) 0 0 3 =
      some ⟨2, 120, 396/5, 67, "agile", 61/5, 335/44⟩ := by
  rw [durationRow, min_ex8_3, idx_ex8_3, sort_ex8]
  norm_num [ex8, pt, GO_PRICE, charge_rate_30_min, agile_ne_go]

theorem col_ex8_4 : sum_current_and_next_n (costSeries ex8) 4 =
    [some (110), some (110), some (110), some (89), none, none, none, none] := by
  norm_num [cost_ex8, sum_current_and_next_n, shiftNeg, rollingSumMP1,
    List.range_succ]

theorem min_ex8_4 : seriesMin (sum_current_and_next_n (costSeries ex8) 4) =
    some (89) := by
  rw [col_ex8_4]
  norm_num [seriesMin, min_def]

theorem idx_ex8_4 : idxmin (sum_current_and_next_n (costSeries ex8) 4) =
    some 3 := by
  rw [idxmin, min_ex8_4, col_ex8_4]
  norm_num [findFirstIdx]

theorem row_ex8_4 :
    durationRow (sortByValidFrom ex8) (costSeries ex8) 0 0 4 =
      some ⟨5/2, 90, 99, 89, "agile", 10, 89/11⟩ := by
  rw [durationRow, min_ex8_4, idx_ex8_4, sort_ex8]
  norm_num [ex8, pt, GO_PRICE, charge_rate_30_min, agile_ne_go]

theorem col_ex8_5 : sum_current_and_next_n (costSeries ex8) 5 =
    [some (132), some (132), some (111), none, none, none, none, none] := by
  norm_num [cost_ex8, sum_current_and_next_n, shiftNeg, rollingSumMP1,
    List.range_succ]

theorem min_ex8_5 : seriesMin (sum_current_and_next_n (costSeries ex8) 5) =
    some (111) := by
  rw [col_ex8_5]
  norm_num [seriesMin, min_def]

theorem idx_ex8_5 : idxmin (sum_current_and_next_n (costSeries ex8) 5) =
    some 2 := by
  rw [idxmin, min_ex8_5, col_ex8_5]
  norm_num [findFirstIdx]

theorem row_ex8_5 :
    durationRow (sortByValidFrom ex8) (costSeries ex8) 0 0 5 =
      some ⟨3, 60, 594/5, 111, "agile", 39/5, 185/22⟩ := by
  rw [durationRow, min_ex8_5, idx_ex8_5, sort_ex8]
  norm_num [ex8, pt, GO_PRICE, charge_rate_30_min, agile_ne_go]

theorem col_ex8_6 : sum_current_and_next_n (costSeries ex8) 6 =
    [some (154), some (133), none, none, none, none, none, none] := by
  norm_num [cost_ex8, sum_current_and_next_n, shiftNeg, rollingSumMP1,
    List.range_succ]

theorem min_ex8_6 : seriesMin (sum_current_and_next_n (costSeries ex8) 6) =
    some (133) := by
  rw [col_ex8_6]
  norm_num [seriesMin, min_def]

theorem idx_ex8_6 : idxmin (sum_current_and_next_n (costSeries ex8) 6) =
    some 1 := by
  rw [idxmin, min_ex8_6, col_ex8_6]
  norm_num [findFirstIdx]

theorem row_ex8_6 :
    durationRow (sortByValidFrom ex8) (costSeries ex8) 0 0 6 =
      some ⟨7/2, 30, 693/5, 133, "agile", 28/5, 95/11⟩ := by
  rw [durationRow, min_ex8_6, idx_ex8_6, sort_ex8]
  norm_num [ex8, pt, GO_PRICE, charge_rate_30_min, agile_ne_go]

theorem col_ex8_7 : sum_current_and_next_n (costSeries ex8) 7 =
    [some (155), none, none, none, none, none, none, none] := by
  norm_num [cost_ex8, sum_current_and_next_n, shiftNeg, rollingSumMP1,
    List.range_succ]

theorem min_ex8_7 : seriesMin (sum_current_and_next_n (costSeries ex8) 7) =
    some (155) := by
  rw [col_ex8_7]
  norm_num [seriesMin, min_def]

theorem idx_ex8_7 : idxmin (sum_current_and_next_n (costSeries ex8) 7) =
    some 0 := by
  rw [idxmin, min_ex8_7, col_ex8_7]
  norm_num [findFirstIdx]

theorem row_ex8_7 :
    durationRow (sortByValidFrom ex8) (costSeries ex8) 0 0 7 =
      some ⟨4, 0, 792/5, 155, "agile", 17/5, 775/88⟩ := by
  rw [durationRow, min_ex8_7, idx_ex8_7, sort_ex8]
  norm_num [ex8, pt, GO_PRICE, charge_rate_30_min, agile_ne_go]

theorem process_ex8 : process_prices ex8 0 0 = some ex8Rows := by
  unfold process_prices
  norm_num [List.range_succ, row_ex8_1, row_ex8_2, row_ex8_3, row_ex8_4,
    row_ex8_5, row_ex8_6, row_ex8_7, allSome, ex8Rows]



theorem col_exEq_1 : sum_current_and_next_n (costSeries exEq) 1 =
    [some (44), some (44), some (44), some (44), some (44), some (44), some (44), none] := by
  norm_num [cost_exEq, sum_current_and_next_n, shiftNeg, rollingSumMP1,
    List.range_succ]

theorem min_exEq_1 : seriesMin (sum_current_and_next_n (costSeries exEq) 1) =
    some (44) := by
  rw [col_exEq_1]
  norm_num [seriesMin, min_def]

theorem idx_exEq_1 : idxmin (sum_current_and_next_n (costSeries exEq) 1) =
    some 0 := by
  rw [idxmin, min_exEq_1, col_exEq_1]
  norm_num [findFirstIdx]

theorem row_exEq_1 :
    durationRow (sortByValidFrom exEq) (costSeries exEq) 0 0 1 =
      some ⟨1, 0, 198/5, 44, "go", 22/5, 9⟩ := by
  rw [durationRow, min_exEq_1, idx_exEq_1, sort_exEq]
  norm_num [exEq, pt, GO_PRICE, charge_rate_30_min, agile_ne_go]

theorem col_exEq_2 : sum_current_and_next_n (costSeries exEq) 2 =
    [some (66), some (66), some (66), some (66), some (66), some (66), none, none] := by
  norm_num [cost_exEq, sum_current_and_next_n, shiftNeg, rollingSumMP1,
    List.range_succ]

theorem min_exEq_2 : seriesMin (sum_current_and_next_n (costSeries exEq) 2) =
    some (66) := by
  rw [col_exEq_2]
  norm_num [seriesMin, min_def]

theorem idx_exEq_2 : idxmin (sum_current_and_next_n (costSeries exEq) 2) =
    some 0 := by
  rw [idxmin, min_exEq_2, col_exEq_2]
  norm_num [findFirstIdx]

theorem row_exEq_2 :
    durationRow (sortByValidFrom exEq) (costSeries exEq) 0 0 2 =
      some ⟨3/2, 0, 297/5, 66, "go", 33/5, 9⟩ := by
  rw [durationRow, min_exEq_2, idx_exEq_2, sort_exEq]
  norm_num [exEq, pt, GO_PRICE, charge_rate_30_min, agile_ne_go]

theorem col_exEq_3 : sum_current_and_next_n (costSeries exEq) 3 =
    [some (88), some (88), some (88), some (88), some (88), none, none, none] := by
  norm_num [cost_exEq, sum_current_and_next_n, shiftNeg, rollingSumMP1,
    List.range_succ]

theorem min_exEq_3 : seriesMin (sum_current_and_next_n (costSeries exEq) 3) =
    some (88) := by
  rw [col_exEq_3]
  norm_num [seriesMin, min_def]

theorem idx_exEq_3 : idxmin (sum_current_and_next_n (costSeries exEq) 3) =
    some 0 := by
  rw [idxmin, min_exEq_3, col_exEq_3]
  norm_num [findFirstIdx]

theorem row_exEq_3 :
    durationRow (sortByValidFrom exEq) (costSeries exEq) 0 0 3 =
      some ⟨2, 0, 396/5, 88, "go", 44/5, 9⟩ := by
  rw [durationRow, min_exEq_3, idx_exEq_3, sort_exEq]
  norm_num [exEq, pt, GO_PRICE, charge_rate_30_min, agile_ne_go]

theorem col_exEq_4 : sum_current_and_next_n (costSeries exEq) 4 =
    [some (110), some (110), some (110), some (110), none, none, none, none] := by
  norm_num [cost_exEq, sum_current_and_next_n, shiftNeg, rollingSumMP1,
    List.range_succ]

theorem min_exEq_4 : seriesMin (sum_current_and_next_n (costSeries exEq) 4) =
    some (110) := by
  rw [col_exEq_4]
  norm_num [seriesMin, min_def]

theorem idx_exEq_4 : idxmin (sum_current_and_next_n (costSeries exEq) 4) =
    some 0 := by
  rw [idxmin, min_exEq_4, col_exEq_4]
  norm_num [findFirstIdx]

theorem row_exEq_4 :
    durationRow (sortByValidFrom exEq) (costSeries exEq) 0 0 4 =
      some ⟨5/2, 0, 99, 110, "go", 11, 9⟩ := by
  rw [durationRow, min_exEq_4, idx_exEq_4, sort_exEq]
  norm_num [exEq, pt, GO_PRICE, charge_rate_30_min, agile_ne_go]

theorem col_exEq_5 : sum_current_and_next_n (costSeries exEq) 5 =
    [some (132), some (132), some (132), none, none, none, none, none] := by
  norm_num [cost_exEq, sum_current_and_next_n, shiftNeg, rollingSumMP1,
    List.range_succ]

theorem min_exEq_5 : seriesMin (sum_current_and_next_n (costSeries exEq) 5) =
    some (132) := by
  rw [col_exEq_5]
  norm_num [seriesMin, min_def]

theorem idx_exEq_5 : idxmin (sum_current_and_next_n (costSeries exEq) 5) =
    some 0 := by
  rw [idxmin, min_exEq_5, col_exEq_5]
  norm_num [findFirstIdx]

theorem row_exEq_5 :
    durationRow (sortByValidFrom exEq) (costSeries exEq) 0 0 5 =
      some ⟨3, 0, 594/5, 132, "go", 66/5, 9⟩ := by
  rw [durationRow, min_exEq_5, idx_exEq_5, sort_exEq]
  norm_num [exEq, pt, GO_PRICE, charge_rate_30_min, agile_ne_go]

theorem col_exEq_6 : sum_current_and_next_n (costSeries exEq) 6 =
    [some (154), some (154), none, none, none, none, none, none] := by
  norm_num [cost_exEq, sum_current_and_next_n, shiftNeg, rollingSumMP1,
    List.range_succ]

theorem min_exEq_6 : seriesMin (sum_current_and_next_n (costSeries exEq) 6) =
    some (154) := by
  rw [col_exEq_6]
  norm_num [seriesMin, min_def]

theorem idx_exEq_6 : idxmin (sum_current_and_next_n (costSeries exEq) 6) =
    some 0 := by
  rw [idxmin, min_exEq_6, col_exEq_6]
  norm_num [findFirstIdx]

theorem row_exEq_6 :
    durationRow (sortByValidFrom exEq) (costSeries exEq) 0 0 6 =
      some ⟨7/2, 0, 693/5, 154, "go", 77/5, 9⟩ := by
  rw [durationRow, min_exEq_6, idx_exEq_6, sort_exEq]
  norm_num [exEq, pt, GO_PRICE, charge_rate_30_min, agile_ne_go]

theorem col_exEq_7 : sum_current_and_next_n (costSeries exEq) 7 =
    [some (176), none, none, none, none, none, none, none] := by
  norm_num [cost_exEq, sum_current_and_next_n, shiftNeg, rollingSumMP1,
    List.range_succ]

theorem min_exEq_7 : seriesMin (sum_current_and_next_n (costSeries exEq) 7) =
    some (176) := by
  rw [col_exEq_7]
  norm_num [seriesMin, min_def]

theorem idx_exEq_7 : idxmin (sum_current_and_next_n (costSeries exEq) 7) =
    some 0 := by
  rw [idxmin, min_exEq_7, col_exEq_7]
  norm_num [findFirstIdx]

theorem row_exEq_7 :
    durationRow (sortByValidFrom exEq) (costSeries exEq) 0 0 7 =
      some ⟨4, 0, 792/5, 176, "go", 88/5, 9⟩ := by
  rw [durationRow, min_exEq_7, idx_exEq_7, sort_exEq]
  norm_num [exEq, pt, GO_PRICE, charge_rate_30_min, agile_ne_go]

theorem process_exEq : process_prices exEq 0 0 = some exEqRows := by
  unfold process_prices
  norm_num [List.range_succ, row_exEq_1, row_exEq_2, row_exEq_3, row_exEq_4,
    row_exEq_5, row_exEq_6, row_exEq_7, allSome, exEqRows]


theorem length_sum_current_and_next_n (s : List ℚ) (n : Nat) :
    (sum_current_and_next_n s n).length = s.length := by
  simp [sum_current_and_next_n, shiftNeg, length_rollingSumMP1]

theorem process_prices_singleton (p : PricePoint) (go_sc agile_sc : ℚ) :
    process_prices [p] go_sc agile_sc = none := by
  have hsort : sortByValidFrom [p] = [p] :=
    List.mergeSort_of_sorted (List.pairwise_singleton _ p)
  have hlen : (costSeries [p]).length = 1 := by
    simp [costSeries, hsort]
  have hcol : sum_current_and_next_n (costSeries [p]) 1 = [none] := by
    apply List.ext_getElem?
    intro i
    rw [windowColumn_getElem?, hlen]
    cases i with
    | zero => norm_num
    | succ i0 => simp
  have hrow : durationRow [p] (costSeries [p]) go_sc agile_sc 1 = none := by
    rw [durationRow, hcol]
    simp [seriesMin, idxmin]
  unfold process_prices
  rw [hsort]
  norm_num [List.range_succ, hrow, allSome]

theorem go_ne_agile : ¬ ("go" = "agile") := by decide

theorem tryBody_cases (env : RunEnv) :
    tryBody env = ([], false) ∨
    tryBody env = ([Ev.plotPrices], false) ∨
    tryBody env = ([Ev.plotPrices, Ev.plotTable], false) ∨
    tryBody env = ([Ev.plotPrices, Ev.plotTable, Ev.sendChart], false) ∨
    tryBody env = ([Ev.plotPrices, Ev.plotTable, Ev.sendChart, Ev.sendTable], false) ∨
    tryBody env =
      ([Ev.plotPrices, Ev.plotTable, Ev.sendChart, Ev.sendTable, Ev.markRun], true) := by
  rcases hf : env.fetchResult with _ | rates
  · simp [tryBody, hf]
  · simp only [tryBody, hf]
    repeat' split
    all_goals simp

/-- C3: when the fetch returns an empty rate list on a run that is not yet
gated, main raises the insufficient data error before computing results: the
run performs no chart plotting, no table rendering, no chart or table
delivery and no marker write, only the single error notification. -/
theorem C3_empty_series_aborts (env : RunEnv)
    (hrun : env.hasRunToday = false) (hfetch : env.fetchResult = some []) :
    mainRun env = [Ev.sendError] := by
  simp [mainRun, hrun, tryBody, hfetch]

/-- C3 witness at the concrete empty fetch environment. -/
theorem C3_witness : mainRun envEmpty = [Ev.sendError] :=
  C3_empty_series_aborts envEmpty rfl rfl

/-- C8: on an ungated run, if the try block fails at any step then the trace
is the attempted prefix plus exactly one error notification and no marker
write; conversely a marker write happens only on the fully successful trace,
strictly after both sends and with no error notification. -/
theorem C8_failure_no_marker (env : RunEnv) (hrun : env.hasRunToday = false) :
    ((tryBody env).2 = false →
      Ev.markRun ∉ mainRun env ∧ (mainRun env).count Ev.sendError = 1 ∧
      mainRun env = (tryBody env).1 ++ [Ev.sendError]) ∧
    (Ev.markRun ∈ mainRun env →
      (tryBody env).2 = true ∧ Ev.sendError ∉ mainRun env ∧
      mainRun env =
        [Ev.plotPrices, Ev.plotTable, Ev.sendChart, Ev.sendTable, Ev.markRun]) := by
  have hm : mainRun env = (match tryBody env with
      | (es, true) => es
      | (es, false) => es ++ [Ev.sendError]) := by
    simp [mainRun, hrun]
  rcases tryBody_cases env with h | h | h | h | h | h <;> rw [hm, h] <;> simp [h]

/-- C8 witness: a run whose fetch raises writes no marker and sends exactly
one error notification. -/
theorem C8_witness :
    Ev.markRun ∉ mainRun envFetchFail ∧
      (mainRun envFetchFail).count Ev.sendError = 1 ∧
      mainRun envFetchFail = (tryBody envFetchFail).1 ++ [Ev.sendError] :=
  (C8_failure_no_marker envFetchFail rfl).1 rfl

/-- C9: the off peak classifier accepts exactly the half open daily window
from minute 30 (00:30) inclusive to minute 330 (05:30) exclusive, and the
comparison tariff rate function returns the low rate GO_PRICE exactly on
that window and the higher peak rate 30.92 = 773 / 25 otherwise. -/
theorem C9_offpeak_classifier (t : Nat) :
    (is_offpeak t = true ↔ (30 ≤ timeOfDay t ∧ timeOfDay t < 330)) ∧
    go_rate_for_time t =
      (if 30 ≤ timeOfDay t ∧ timeOfDay t < 330 then GO_PRICE else 773 / 25) ∧
    (go_rate_for_time t = GO_PRICE ↔ (30 ≤ timeOfDay t ∧ timeOfDay t < 330)) := by
  have h9 : (GO_PRICE : ℚ) ≠ 773 / 25 := by norm_num [GO_PRICE]
  have hoff : is_offpeak t = true ↔ (30 ≤ timeOfDay t ∧ timeOfDay t < 330) := by
    simp [is_offpeak, OFFPEAK_START, OFFPEAK_END]
  refine ⟨hoff, ?_, ?_⟩ <;> rw [go_rate_for_time] <;>
    by_cases hc : 30 ≤ timeOfDay t ∧ timeOfDay t < 330
  · rw [if_pos (hoff.mpr hc), if_pos hc]
  · rw [if_neg ?_, if_neg hc]
    simp [hoff, hc]
  · rw [if_pos (hoff.mpr hc)]
    simp [hc]
  · rw [if_neg ?_]
    · simp [hc, Ne.symm h9]
    · simp [hoff, hc]

/-- C1 counterexample: in a two slot series with both slot costs 1 and
duration candidate n = 1, the window aligned to the final start slot, whose
nominal end runs past the series, is missing (NaN) in the code, while the
truncating sum of the available slots described by the spec is 1. -/
theorem C1_counterexample :
    (sum_current_and_next_n [1, 1] 1)[1]? = some none ∧
    specWindowSum [1, 1] 1 1 = 1 := by
  constructor
  · rw [windowColumn_getElem?]
    norm_num
  · norm_num [specWindowSum]

/-- C1 (amended): the window sum aligned to start slot i is the full
(n + 1)-slot sum exactly when the window fits (i + n < L), and is missing
(NaN) when the nominal end passes the series end: shift(-n) reintroduces
missing values at the tail, so truncated tail windows are absent from the
column rather than partially summed. -/
theorem C1_tail_windows_missing (s : List ℚ) (n i : Nat) :
    (sum_current_and_next_n s n)[i]? =
      if i < s.length then
        some (if i + n < s.length then some (specWindowSum s n i) else none)
      else none :=
  windowColumn_getElem? s n i

/-- C2 counterexample: on the concrete single point series the engine fails
(no WindowResult table is produced) instead of returning one slot windows. -/
theorem C2_counterexample : process_prices [pt 0 10] 0 0 = none :=
  process_prices_singleton (pt 0 10) 0 0

/-- C2 (amended): for every DailySeries containing exactly one PricePoint,
process_prices fails: already the duration column for n = 1 is all missing
after the shift, so its column minimum and idxmin are undefined and the
engine aborts rather than producing truncated one slot windows. -/
theorem C2_singleton_fails (p : PricePoint) (go_sc agile_sc : ℚ) :
    process_prices [p] go_sc agile_sc = none :=
  process_prices_singleton p go_sc agile_sc

/-- C4 counterexample: on ex8 with zero standing charges the duration 1 row
reports dynamic cost 23, but the truncating window sum the spec describes
for the final start slot 7 (whose window runs past the series end) is 1, so
minimality fails once start slots with truncated windows are included. -/
theorem C4_counterexample :
    process_prices ex8 0 0 = some ex8Rows ∧
    (ex8Rows.getD 0 default).hours = 1 ∧
    specWindowSum (costSeries ex8) 1 7 + 0 <
      (ex8Rows.getD 0 default).agile_price := by
  refine ⟨process_ex8, by norm_num [ex8Rows], ?_⟩
  rw [cost_ex8]
  norm_num [ex8Rows, specWindowSum]

/-- C4 (amended): minimality holds over the start slots whose full window
fits: for every series, duration row k (duration candidate k + 1) and start
slot i with i + (k + 1) < L, the reported pre rounding agile_price is at
most the window sum aligned to i plus the variable standing charge.  Start
slots whose nominal window end passes the series end carry no window sum
(the column entry is missing) and are excluded from the minimum. -/
theorem C4_dynamic_cost_minimal (rates : List PricePoint) (go_sc agile_sc : ℚ)
    (rs : List WindowResult) (k : Nat) (r : WindowResult) (i : Nat)
    (hp : process_prices rates go_sc agile_sc = some rs)
    (hr : rs[k]? = some r)
    (hi : i + (k + 1) < (costSeries rates).length) :
    r.agile_price ≤ specWindowSum (costSeries rates) (k + 1) i + agile_sc := by
  obtain ⟨-, hrow⟩ := process_prices_row rates go_sc agile_sc rs k r hp hr
  obtain ⟨m, j, p, hm, hj, hp3, hh, hst, hgo, hag, hw, hd, hrate⟩ :=
    durationRow_inv _ _ _ _ _ _ hrow
  have hcol := windowColumn_getElem? (costSeries rates) (k + 1) i
  rw [if_pos (by omega), if_pos hi] at hcol
  have hle := seriesMin_le _ m i _ hm hcol
  rw [hag]
  exact add_le_add_right hle agile_sc

/-- C4 witness: on ex8 the duration 1 row dynamic cost 23 is at most the
full window sum aligned to start slot 6 plus the zero standing charge. -/
theorem C4_witness :
    (ex8Rows.getD 0 default).agile_price ≤
      specWindowSum (costSeries ex8) 1 6 + 0 :=
  C4_dynamic_cost_minimal ex8 0 0 ex8Rows 0 (ex8Rows.getD 0 default) 6
    process_ex8 (by norm_num [ex8Rows]) (by rw [cost_ex8]; norm_num)

/-- C5: earliest tie break: for every duration row whose column minimum m is
attained at some start slot i, the reported start_time is the valid_from of a
slot j that itself attains m, lies at or before every slot attaining m (it is
the first attaining slot, hence at or before i), and, the frame being sorted
ascending, carries the smallest valid_from among all slots attaining m. -/
theorem C5_tie_break (rates : List PricePoint) (go_sc agile_sc : ℚ)
    (rs : List WindowResult) (k : Nat) (r : WindowResult) (i : Nat) (m : ℚ)
    (hp : process_prices rates go_sc agile_sc = some rs)
    (hr : rs[k]? = some r)
    (hm : seriesMin (sum_current_and_next_n (costSeries rates) (k + 1)) = some m)
    (hi : (sum_current_and_next_n (costSeries rates) (k + 1))[i]? = some (some m)) :
    ∃ j p, j ≤ i ∧
      (sum_current_and_next_n (costSeries rates) (k + 1))[j]? = some (some m) ∧
      (∀ j2, (sum_current_and_next_n (costSeries rates) (k + 1))[j2]? =
        some (some m) → j ≤ j2) ∧
      (sortByValidFrom rates)[j]? = some p ∧
      r.start_time = p.valid_from ∧
      ∀ (j2 : Nat) (q : PricePoint),
        (sum_current_and_next_n (costSeries rates) (k + 1))[j2]? =
          some (some m) →
        (sortByValidFrom rates)[j2]? = some q → p.valid_from ≤ q.valid_from := by
  obtain ⟨-, hrow⟩ := process_prices_row rates go_sc agile_sc rs k r hp hr
  obtain ⟨m2, j, p, hm2, hj, hp3, hh, hst, hgo, hag, hw, hd, hrate⟩ :=
    durationRow_inv _ _ _ _ _ _ hrow
  have hmm : m2 = m := by
    rw [hm2] at hm
    exact Option.some.inj hm
  subst hmm
  rw [idxmin, hm2] at hj
  have hji : j ≤ i := findFirstIdx_le _ m2 j i hj hi
  exact ⟨j, p, hji, findFirstIdx_getElem _ m2 j hj,
    fun j2 hj2 => findFirstIdx_le _ m2 j j2 hj hj2, hp3, hst,
    fun j2 q hj2 hq =>
      sortByValidFrom_mono rates j j2 (findFirstIdx_le _ m2 j j2 hj hj2) p q hp3 hq⟩

/-- C5 witness: on the all equal series exEq every fitting start slot of the
duration 1 column attains the minimum 44; at slot 3 the theorem returns the
first attaining slot, at or before 3, itself attaining 44, whose valid_from
is the reported start and is smallest among all attaining slots. -/
theorem C5_witness :
    ∃ j p, j ≤ 3 ∧
      (sum_current_and_next_n (costSeries exEq) 1)[j]? = some (some 44) ∧
      (∀ j2, (sum_current_and_next_n (costSeries exEq) 1)[j2]? =
        some (some 44) → j ≤ j2) ∧
      (sortByValidFrom exEq)[j]? = some p ∧
      (exEqRows.getD 0 default).start_time = p.valid_from ∧
      ∀ (j2 : Nat) (q : PricePoint),
        (sum_current_and_next_n (costSeries exEq) 1)[j2]? = some (some 44) →
        (sortByValidFrom exEq)[j2]? = some q → p.valid_from ≤ q.valid_from :=
  C5_tie_break exEq 0 0 exEqRows 0 (exEqRows.getD 0 default) 3 44
    process_exEq (by norm_num [exEqRows]) min_exEq_1
    (by rw [col_exEq_1]; norm_num)

/-- C6: in every produced row the winner is go exactly when the flat cost is
strictly below the dynamic cost and agile otherwise, price_diff is the exact
absolute difference of the two costs, and rate is the winning cost divided
by hours * 2 * charge_rate_30_min, all before display rounding. -/
theorem C6_comparison_fields (rates : List PricePoint) (go_sc agile_sc : ℚ)
    (rs : List WindowResult) (r : WindowResult)
    (hp : process_prices rates go_sc agile_sc = some rs) (hr : r ∈ rs) :
    (r.winner = "go" ↔ r.go_price < r.agile_price) ∧
    (r.winner = "agile" ↔ ¬ r.go_price < r.agile_price) ∧
    r.price_diff = |r.go_price - r.agile_price| ∧
    r.rate = (if r.go_price < r.agile_price then r.go_price
        else r.agile_price) / (r.hours * 2 * charge_rate_30_min) := by
  obtain ⟨k, -, hrow⟩ := process_prices_mem rates go_sc agile_sc rs r hp hr
  obtain ⟨m, j, p, hm, hj, hp3, hh, hst, hgo, hag, hw, hd, hrate⟩ :=
    durationRow_inv _ _ _ _ _ _ hrow
  refine ⟨?_, ?_, hd, ?_⟩
  · rw [hw]
    by_cases hc : r.go_price < r.agile_price
    · simp [hc]
    · simp [hc, go_ne_agile, agile_ne_go]
  · rw [hw]
    by_cases hc : r.go_price < r.agile_price
    · simp [hc, go_ne_agile]
    · simp [hc]
  · rw [hrate, hw]
    by_cases hc : r.go_price < r.agile_price
    · simp [hc]
    · simp [hc, agile_ne_go]

/-- C6 witness at the first row of the ex8 table. -/
theorem C6_witness :
    ((ex8Rows.getD 0 default).winner = "go" ↔
      (ex8Rows.getD 0 default).go_price < (ex8Rows.getD 0 default).agile_price) ∧
    ((ex8Rows.getD 0 default).winner = "agile" ↔
      ¬ (ex8Rows.getD 0 default).go_price < (ex8Rows.getD 0 default).agile_price) ∧
    (ex8Rows.getD 0 default).price_diff =
      |(ex8Rows.getD 0 default).go_price - (ex8Rows.getD 0 default).agile_price| ∧
    (ex8Rows.getD 0 default).rate =
      (if (ex8Rows.getD 0 default).go_price < (ex8Rows.getD 0 default).agile_price
        then (ex8Rows.getD 0 default).go_price
        else (ex8Rows.getD 0 default).agile_price) /
        ((ex8Rows.getD 0 default).hours * 2 * charge_rate_30_min) :=
  C6_comparison_fields ex8 0 0 ex8Rows (ex8Rows.getD 0 default) process_ex8
    (by norm_num [ex8Rows])

/-- C7: in every produced row the flat tariff cost satisfies
go_price = GO_PRICE * hours * 2 * charge_rate_30_min + go_sc exactly. -/
theorem C7_flat_cost_formula (rates : List PricePoint) (go_sc agile_sc : ℚ)
    (rs : List WindowResult) (r : WindowResult)
    (hp : process_prices rates go_sc agile_sc = some rs) (hr : r ∈ rs) :
    r.go_price = GO_PRICE * r.hours * 2 * charge_rate_30_min + go_sc := by
  obtain ⟨k, -, hrow⟩ := process_prices_mem rates go_sc agile_sc rs r hp hr
  obtain ⟨m, j, p, hm, hj, hp3, hh, hst, hgo, hag, hw, hd, hrate⟩ :=
    durationRow_inv _ _ _ _ _ _ hrow
  rw [hgo, hh]

/-- C7 witness: with flat rate 9, consumption rate 2.2, hours 1 and zero
standing charge the flat cost is exactly 39.6. -/
theorem C7_witness :
    (ex8Rows.getD 0 default).hours = 1 ∧
      (ex8Rows.getD 0 default).go_price = 39.6 := by
  have h := C7_flat_cost_formula ex8 0 0 ex8Rows (ex8Rows.getD 0 default)
    process_ex8 (by norm_num [ex8Rows])
  refine ⟨by norm_num [ex8Rows], ?_⟩
  rw [h]
  norm_num [ex8Rows, GO_PRICE, charge_rate_30_min]

/-- C10: the engine sorts its input by valid_from, so for inputs with
pairwise distinct valid_from values the WindowResult table is invariant
under permutation of the rate records. -/
theorem C10_order_invariance (r1 r2 : List PricePoint) (go_sc agile_sc : ℚ)
    (hperm : r1.Perm r2)
    (hnodup : (r1.map PricePoint.valid_from).Nodup) :
    process_prices r1 go_sc agile_sc = process_prices r2 go_sc agile_sc := by
  have hs := sortByValidFrom_eq_of_perm r1 r2 hperm hnodup
  unfold process_prices costSeries
  rw [hs]

/-- C10 witness: exchanging the first two records of exEq leaves the
produced table unchanged. -/
theorem C10_witness :
    process_prices exEq 0 0 = process_prices exEqSwap 0 0 :=
  C10_order_invariance exEq exEqSwap 0 0
    (by unfold exEq exEqSwap; exact List.Perm.swap (pt 30 10) (pt 0 10) _)
    (by decide)
